import Mathlib

/-!
Verification development for the `keithley2400` instrument-driver package:
a shallow embedding of its command-encoding layer, subsystem controllers
(`source.py`, `measure.py`, `trigger.py`, `status.py`, `config.py`) and the
sweep-orchestration engine (`sweep.py`), together with theorems about the
claims of the specification.

Embedding conventions:
* Python floats are modelled as exact rational values, represented by the
  structure `Frac` (an integer numerator and a positive integer denominator,
  not necessarily reduced).  All operations on `Frac` are kernel-computable.
* A controller method that writes one SCPI command is modelled as a function
  returning that command string; a sweep routine is modelled as a function
  returning the ordered list of command strings it sends (its trace)
  together with an `Option` result, `none` standing for a raised exception.
* The transport is modelled at its interface: `query_ascii_values` for the
  `:READ?` step is an `Option (List Frac)` argument (`none` = the transport
  read raised), and reply strings for getters are plain `String` arguments.
* Python string/number primitives (`str.strip`, `int(...)`, `float(...)`,
  the `%E` float format, `str(float)`, `round`) are modelled faithfully for
  finite values; `inf`/`nan` replies are outside the model.
-/

set_option maxRecDepth 4000

/-! ## Character and string utilities -/

/-- Whitespace characters recognised by Python's `str.strip()` (ASCII part). -/
def isPySpace (c : Char) : Bool :=
  c = ' ' || c = '\t' || c = '\n' || c = '\r' || c = '\x0b' || c = '\x0c'

/-- Strip leading and trailing characters satisfying `p` from a character list. -/
def stripWhile (p : Char → Bool) (cs : List Char) : List Char :=
  ((cs.dropWhile p).reverse.dropWhile p).reverse

/-- Python `str.strip()` on the character list of a string. -/
def pyStripChars (cs : List Char) : List Char := stripWhile isPySpace cs

/-- Python `str.strip()`. -/
def pyStrip (s : String) : String := ⟨pyStripChars s.data⟩

/-- Python `str.strip('"')`: drop all leading and trailing double quotes. -/
def stripQuoteChars (cs : List Char) : List Char := stripWhile (· = '"') cs

/-- Decimal digit character for a value in `0..9` (larger inputs give '9';
they are never produced because every call site reduces modulo 10 first). -/
def decDigitChar (n : ℕ) : Char :=
  match n with
  | 0 => '0' | 1 => '1' | 2 => '2' | 3 => '3' | 4 => '4'
  | 5 => '5' | 6 => '6' | 7 => '7' | 8 => '8' | _ => '9'

/-- Decimal digits of a natural number, most significant first, driven by
explicit fuel so that it is structurally recursive. -/
def natDigitsAux : ℕ → ℕ → List Char
  | 0, _ => []
  | f + 1, n =>
    if n < 10 then [decDigitChar n]
    else natDigitsAux f (n / 10) ++ [decDigitChar (n % 10)]

/-- Decimal rendering of a natural number (models Python `str` on `int ≥ 0`). -/
def natStr (n : ℕ) : String := ⟨natDigitsAux (n + 1) n⟩

/-! ## Exact rational values standing for Python floats -/

/-- An exact rational value `num / den`; the embedding of a Python float.
Every value the development builds keeps `0 < den`; the fraction is not
necessarily in lowest terms. -/
structure Frac where
  num : ℤ
  den : ℤ
deriving DecidableEq

instance (n : ℕ) : OfNat Frac n := ⟨⟨n, 1⟩⟩

/-- Shorthand constructor for a fraction. -/
def fr (n d : ℤ) : Frac := ⟨n, d⟩

/-- Value-level subtraction (cross multiplication, no normalisation). -/
def Frac.sub (p q : Frac) : Frac := ⟨p.num * q.den - q.num * p.den, p.den * q.den⟩

/-- Absolute value. -/
def Frac.abs (p : Frac) : Frac := ⟨|p.num|, p.den⟩

/-- Division of two fractions with nonnegative numerators (the only use in
the source is `abs(stop-start) / abs(step)`). -/
def Frac.divNN (p q : Frac) : Frac := ⟨p.num * q.den, p.den * q.num⟩

/-- Whether the value of `p` is zero (for `0 < den` this is value equality
with `0.0`, the test Python's `ZeroDivisionError` guard depends on). -/
def Frac.isZero (p : Frac) : Bool := p.num = 0

/-- Whether the integer `k` is strictly below the value of `p`
(cross multiplication; faithful for `0 < den`). -/
def Frac.intLt (k : ℤ) (p : Frac) : Bool := k * p.den < p.num

/-- Python `int(float)` conversion: truncation toward zero. -/
def pyTrunc (p : Frac) : ℤ := p.num.tdiv p.den

/-- Python `round(float)` (one-argument form): round half to even. -/
def pyRound (p : Frac) : ℤ :=
  let f := p.num.fdiv p.den
  let r2 := 2 * (p.num - f * p.den)
  if r2 < p.den then f
  else if p.den < r2 then f + 1
  else if f % 2 = 0 then f else f + 1

/-! ## The `%E` wire format for levels, ranges and compliance values -/

/-- Normalisation loop for scientific notation: repeatedly multiply or divide
the fraction `n / d` by ten until it lies in `[1, 10)`, tracking the decimal
exponent.  Fuel-driven structural recursion. -/
def normLoop : ℕ → ℤ → ℤ → ℤ → ℤ × ℤ × ℤ
  | 0, n, d, e => (n, d, e)
  | f + 1, n, d, e =>
    if n < d then normLoop f (10 * n) d (e - 1)
    else if 10 * d ≤ n then normLoop f n (10 * d) (e + 1)
    else (n, d, e)

/-- Mantissa (as a seven-digit integer `d.dddddd`) and exponent of a positive
fraction, with the carry when rounding pushes the mantissa to `10.000000`. -/
def mantExp (p : Frac) : ℤ × ℤ :=
  let r := normLoop (p.num.toNat + p.den.toNat) p.num p.den 0
  let m := pyRound ⟨1000000 * r.1, r.2.1⟩
  if m = 10000000 then (1000000, r.2.2 + 1) else (m, r.2.2)

/-- The seven mantissa characters `d.dddddd` of a seven-digit integer. -/
def mantissaChars (m : ℕ) : List Char :=
  decDigitChar (m / 1000000 % 10) :: '.' ::
    [decDigitChar (m / 100000 % 10), decDigitChar (m / 10000 % 10),
     decDigitChar (m / 1000 % 10), decDigitChar (m / 100 % 10),
     decDigitChar (m / 10 % 10), decDigitChar (m % 10)]

/-- Exponent digits, zero padded to width two (Python prints at least two). -/
def expDigits (n : ℕ) : List Char :=
  if n < 10 then '0' :: natDigitsAux (n + 1) n else natDigitsAux (n + 1) n

/-- Signed exponent part of the `%E` format. -/
def expChars (e : ℤ) : List Char :=
  (if e < 0 then '-' else '+') :: expDigits e.natAbs

/-- Python `f"{x:E}"`: normalised scientific notation with a six-digit
fractional mantissa and a signed, at-least-two-digit exponent. -/
def formatE (p : Frac) : String :=
  if p.num = 0 then "0.000000E+00"
  else
    let me := mantExp p.abs
    let body := mantissaChars me.1.toNat ++ 'E' :: expChars me.2
    ⟨if p.num * p.den < 0 then '-' :: body else body⟩

/-! ## Plain decimal rendering (Python `str(float)`) for delay and NPLC -/

/-- Multiplicity of the factor `p` in `n`, fuel-driven. -/
def countFactor : ℕ → ℕ → ℕ → ℕ
  | 0, _, _ => 0
  | f + 1, p, n =>
    if 2 ≤ p ∧ 1 ≤ n ∧ n % p = 0 then countFactor f p (n / p) + 1 else 0

/-- Zero-pad the decimal digits of `n` on the left to width `k`. -/
def zeroPadNat (k n : ℕ) : List Char :=
  List.replicate (k - (natDigitsAux (n + 1) n).length) '0' ++ natDigitsAux (n + 1) n

/-- Python `str(float)` for values with a terminating decimal expansion
(every binary float has one): sign, integer part, `.`, fractional digits.
The extreme magnitudes where CPython switches to exponent notation do not
arise in this development and are not modelled. -/
def pyFloatStr (p : Frac) : String :=
  let sgn := if p.num * p.den < 0 then "-" else ""
  let n0 := p.num.natAbs
  let d0 := p.den.natAbs
  let g := Nat.gcd n0 d0
  let n := n0 / g
  let d := d0 / g
  let k2 := countFactor d 2 d
  let k5 := countFactor d 5 d
  let k := max k2 k5
  if d = 2 ^ k2 * 5 ^ k5 then
    let scaledN := n * 10 ^ k / d
    sgn ++ natStr (scaledN / 10 ^ k) ++ "." ++
      (if k = 0 then "0" else ⟨zeroPadNat k (scaledN % 10 ^ k)⟩)
  else
    sgn ++ natStr n ++ "/" ++ natStr d

/-! ## Reply parsing (Python `int(...)` and `float(...)`) -/

/-- Consume a maximal run of decimal digits that may contain single
underscores between digits (Python numeric-literal syntax accepted by
`int` and `float`); `none` on a misplaced underscore.  Called after at
least one digit has been consumed into `acc`. -/
def digitRunAux : ℤ → ℕ → List Char → Option (ℤ × ℕ × List Char)
  | acc, k, [] => some (acc, k, [])
  | acc, k, '_' :: rest =>
    match rest with
    | c :: rest2 =>
      if c.isDigit then digitRunAux (10 * acc + ((c.toNat - 48 : ℕ) : ℤ)) (k + 1) rest2
      else none
    | [] => none
  | acc, k, c :: rest =>
    if c.isDigit then digitRunAux (10 * acc + ((c.toNat - 48 : ℕ) : ℤ)) (k + 1) rest
    else some (acc, k, c :: rest)

/-- Consume a (possibly empty) digit run from the front; returns the value,
the number of digits, and the remaining characters. -/
def startDigitRun (cs : List Char) : Option (ℤ × ℕ × List Char) :=
  match cs with
  | c :: rest =>
    if c.isDigit then digitRunAux ((c.toNat - 48 : ℕ) : ℤ) 1 rest
    else some (0, 0, cs)
  | [] => some (0, 0, [])

/-- Parse a full character list as an unsigned decimal integer. -/
def parsePosDigits (cs : List Char) : Option ℤ :=
  match startDigitRun cs with
  | some (v, k, []) => if k = 0 then none else some v
  | _ => none

/-- Parse an optionally signed decimal integer (whole list). -/
def parseSignedDigits (cs : List Char) : Option ℤ :=
  match cs with
  | '+' :: rest => parsePosDigits rest
  | '-' :: rest => (parsePosDigits rest).map Int.neg
  | _ => parsePosDigits cs

/-- Parse the exponent suffix of a float literal (empty means exponent 0). -/
def parseExpPart (cs : List Char) : Option ℤ :=
  match cs with
  | [] => some 0
  | 'e' :: rest => parseSignedDigits rest
  | 'E' :: rest => parseSignedDigits rest
  | _ => none

/-- Build the value `(ip + fp / 10^k) * 10^e` as a fraction. -/
def scaledFrac (ip fp : ℤ) (k : ℕ) (e : ℤ) : Frac :=
  let m := ip * ((10 ^ k : ℕ) : ℤ) + fp
  if 0 ≤ e then ⟨m * ((10 ^ e.toNat : ℕ) : ℤ), ((10 ^ k : ℕ) : ℤ)⟩
  else ⟨m, ((10 ^ k : ℕ) : ℤ) * ((10 ^ (-e).toNat : ℕ) : ℤ)⟩

/-- Parse an unsigned float literal: digits, optional point and fractional
digits, optional exponent; at least one mantissa digit is required. -/
def parseUFloatVal (cs : List Char) : Option Frac := do
  let (ip, icnt, r1) ← startDigitRun cs
  match r1 with
  | '.' :: r2 => do
    let (fp, fcnt, r3) ← startDigitRun r2
    if icnt + fcnt = 0 then none
    else do
      let e ← parseExpPart r3
      some (scaledFrac ip fp fcnt e)
  | _ =>
    if icnt = 0 then none
    else do
      let e ← parseExpPart r1
      some (scaledFrac ip 0 0 e)

/-- Python `float(str)` on finite decimal/scientific literals (`inf`/`nan`
are outside the model): strip whitespace, optional sign, unsigned literal. -/
def pyParseFloat (s : String) : Option Frac :=
  match pyStripChars s.data with
  | '+' :: rest => parseUFloatVal rest
  | '-' :: rest => (parseUFloatVal rest).map fun p => ⟨-p.num, p.den⟩
  | cs => parseUFloatVal cs

/-- Python `int(str)`: strip whitespace, optional sign, decimal digits. -/
def pyParseInt (s : String) : Option ℤ :=
  match pyStripChars s.data with
  | '+' :: rest => parsePosDigits rest
  | '-' :: rest => (parsePosDigits rest).map Int.neg
  | cs => parsePosDigits cs

/-! ## Subsystem controllers

Each setter is modelled as the SCPI command string it writes; each getter as
a function from the (raw) reply string to the decoded value, `none` standing
for a raised `ValueError`.  The transport's `query` strips the reply before
the controller sees it, so every getter applies `pyStrip` first. -/

namespace Config

def output_on : String := ":OUTP ON"

def output_off : String := ":OUTP OFF"

def set_data_elements (elements : List String) : String :=
  ":FORM:ELEM " ++ String.intercalate "," elements

end Config

namespace Source

def set_function (func : String) : String := ":SOUR:FUNC " ++ func

def set_voltage (level : Frac) : String := ":SOUR:VOLT:LEV " ++ formatE level

def set_current (level : Frac) : String := ":SOUR:CURR:LEV " ++ formatE level

def set_voltage_range (r : Frac) : String := ":SOUR:VOLT:RANG " ++ formatE r

def set_current_range (r : Frac) : String := ":SOUR:CURR:RANG " ++ formatE r

def set_voltage_mode (mode : String) : String := ":SOUR:VOLT:MODE " ++ mode

def set_current_mode (mode : String) : String := ":SOUR:CURR:MODE " ++ mode

def set_delay (seconds : Frac) : String := ":SOUR:DEL " ++ pyFloatStr seconds

def set_voltage_protection (volts : Frac) : String := ":SOUR:VOLT:PROT " ++ formatE volts

end Source

namespace Measure

def set_function (funcs : List String) : String :=
  ":SENS:FUNC " ++ String.intercalate "," (funcs.map fun f => "\"" ++ f ++ "\"")

def set_concurrent (enable : Bool) : String :=
  ":SENS:FUNC:CONC " ++ if enable then "ON" else "OFF"

def set_voltage_compliance (volts : Frac) : String :=
  ":SENS:VOLT:PROT " ++ formatE volts

def set_current_compliance (amps : Frac) : String :=
  ":SENS:CURR:PROT " ++ formatE amps

def set_voltage_range (r : Frac) : String := ":SENS:VOLT:RANG " ++ formatE r

def set_current_range (r : Frac) : String := ":SENS:CURR:RANG " ++ formatE r

def set_nplc (func : String) (nplc : Frac) : String :=
  ":SENS:" ++ func ++ ":NPLC " ++ pyFloatStr nplc

end Measure

namespace Trigger

def set_trigger_count (count : ℕ) : String := ":TRIG:COUN " ++ natStr count

/-- `get_trigger_count`: `int(float(reply))`. -/
def get_trigger_count (reply : String) : Option ℤ :=
  (pyParseFloat (pyStrip reply)).map pyTrunc

/-- `get_arm_count`: parse the reply as a float; any value above 2500 is
normalised to `-1` (the INFinite sentinel), otherwise truncate to int. -/
def get_arm_count (reply : String) : Option ℤ :=
  (pyParseFloat (pyStrip reply)).map fun v =>
    if Frac.intLt 2500 v then -1 else pyTrunc v

end Trigger

namespace Status

/-- Python `resp.split(",", 1)`: the text before the first comma and the
text after it (commas after the first are preserved); `none` when the list
holds no comma, in which case the two-name unpacking in the source raises. -/
def splitFirstComma : List Char → Option (List Char × List Char)
  | [] => none
  | c :: rest =>
    if c = ',' then some ([], rest)
    else (splitFirstComma rest).map fun p => (c :: p.1, p.2)

/-- `read_error`: split the stripped `:SYST:ERR?` reply on the first comma,
parse the code with `int(...)`, strip whitespace and surrounding quotes from
the message.  `none` models the `ValueError` raised when there is no comma
(tuple unpacking fails) or the code field is not an integer. -/
def read_error (reply : String) : Option (ℤ × String) :=
  match splitFirstComma (pyStripChars reply.data) with
  | none => none
  | some (code, msg) =>
    (pyParseInt ⟨code⟩).map fun c => (c, ⟨stripQuoteChars (pyStripChars msg)⟩)

/-- `read_all_errors`: drain the queue by calling `read_error` until a
code-0 entry appears, collecting the non-zero entries in arrival order.
The instrument side is modelled as the queued list of reply strings; the
result carries the collected entries and the replies left unconsumed.
`none` models either a parse error or the loop running off the queue (the
unbounded `while True` against an instrument that never reports code 0). -/
def read_all_errors : List String → Option (List (ℤ × String) × List String)
  | [] => none
  | r :: rest =>
    match read_error r with
    | none => none
    | some (code, msg) =>
      if code = 0 then some ([], rest)
      else (read_all_errors rest).map fun p => ((code, msg) :: p.1, p.2)

/-- `read_status_byte`: `int(reply)` directly, no float stage. -/
def read_status_byte (reply : String) : Option ℤ :=
  pyParseInt (pyStrip reply)

/-- `read_event_register`: `int(reply)` directly, no float stage. -/
def read_event_register (reply : String) : Option ℤ :=
  pyParseInt (pyStrip reply)

end Status

/-! ## Sweep engine

Each sweep routine returns the ordered list of command strings it sends and
an `Option` result.  The `readReply` argument models the transport during
the `:READ?` step: `some raw` is the parsed numeric reply delivered by
`query_ascii_values`, `none` is a transport error raised by that call (the
`:READ?` command itself was already written when the read fails).  A `none`
overall result models the exception propagating out of the routine. -/

namespace Sweep

/-- Elements of `l` at even indices (Python `l[0::2]`), in original order. -/
def everyOther {α : Type} : List α → List α
  | [] => []
  | [x] => [x]
  | x :: _ :: rest => x :: everyOther rest

/-- `_parse_two_element`: demultiplex a flat `[a0, b0, a1, b1, ...]` reply
into the two channels `key_a ↦ l[0::2]` and `key_b ↦ l[1::2]`, returned as
the ordered key/value pairs of the Python dict. -/
def parse_two_element {α : Type} (raw : List α) (key_a key_b : String) :
    List (String × List α) :=
  [(key_a, everyOther raw), (key_b, everyOther raw.tail)]

/-- Point count of a linear staircase sweep:
`int(round(abs(stop - start) / abs(step))) + 1`. -/
def numPointsLinear (start stop step : Frac) : ℕ :=
  (pyRound ((stop.sub start).abs.divNN step.abs)).toNat + 1

/-- `voltage_sweep_linear`.  A zero `step` makes the Python routine raise
`ZeroDivisionError` before any command is sent. -/
def voltage_sweep_linear (start stop step compliance delay nplc : Frac)
    (readReply : Option (List Frac)) :
    List String × Option (List (String × List Frac)) :=
  if step.isZero then ([], none)
  else
    let numPoints := numPointsLinear start stop step
    let setup : List String :=
      [ "*RST",
        Measure.set_concurrent false,
        Source.set_function "VOLT",
        Measure.set_function ["CURR:DC"],
        Measure.set_current_compliance compliance,
        Measure.set_nplc "CURR" nplc,
        ":SOUR:VOLT:START " ++ formatE start,
        ":SOUR:VOLT:STOP " ++ formatE stop,
        ":SOUR:VOLT:STEP " ++ formatE step,
        Source.set_voltage_mode "SWE",
        ":SOUR:SWE:RANG AUTO",
        ":SOUR:SWE:SPAC LIN",
        Trigger.set_trigger_count numPoints,
        Source.set_delay delay,
        Config.set_data_elements ["VOLT", "CURR"],
        Config.output_on,
        ":READ?" ]
    match readReply with
    | none => (setup, none)
    | some raw =>
      (setup ++ [Config.output_off], some (parse_two_element raw "voltage" "current"))

/-- `current_sweep_linear`. -/
def current_sweep_linear (start stop step compliance delay nplc : Frac)
    (readReply : Option (List Frac)) :
    List String × Option (List (String × List Frac)) :=
  if step.isZero then ([], none)
  else
    let numPoints := numPointsLinear start stop step
    let setup : List String :=
      [ "*RST",
        Measure.set_concurrent false,
        Source.set_function "CURR",
        Measure.set_function ["VOLT:DC"],
        Measure.set_voltage_compliance compliance,
        Measure.set_nplc "VOLT" nplc,
        ":SOUR:CURR:START " ++ formatE start,
        ":SOUR:CURR:STOP " ++ formatE stop,
        ":SOUR:CURR:STEP " ++ formatE step,
        Source.set_current_mode "SWE",
        ":SOUR:SWE:RANG AUTO",
        ":SOUR:SWE:SPAC LIN",
        Trigger.set_trigger_count numPoints,
        Source.set_delay delay,
        Config.set_data_elements ["VOLT", "CURR"],
        Config.output_on,
        ":READ?" ]
    match readReply with
    | none => (setup, none)
    | some raw =>
      (setup ++ [Config.output_off], some (parse_two_element raw "voltage" "current"))

/-- `voltage_sweep_log` (explicit caller-supplied point count). -/
def voltage_sweep_log (start stop : Frac) (points : ℕ) (compliance delay nplc : Frac)
    (readReply : Option (List Frac)) :
    List String × Option (List (String × List Frac)) :=
  let setup : List String :=
    [ "*RST",
      Measure.set_concurrent false,
      Source.set_function "VOLT",
      Measure.set_function ["CURR:DC"],
      Measure.set_current_compliance compliance,
      Measure.set_nplc "CURR" nplc,
      ":SOUR:VOLT:START " ++ formatE start,
      ":SOUR:VOLT:STOP " ++ formatE stop,
      Source.set_voltage_mode "SWE",
      ":SOUR:SWE:RANG AUTO",
      ":SOUR:SWE:SPAC LOG",
      ":SOUR:SWE:POIN " ++ natStr points,
      Trigger.set_trigger_count points,
      Source.set_delay delay,
      Config.set_data_elements ["VOLT", "CURR"],
      Config.output_on,
      ":READ?" ]
  match readReply with
  | none => (setup, none)
  | some raw =>
    (setup ++ [Config.output_off], some (parse_two_element raw "voltage" "current"))

/-- `current_sweep_log` (explicit caller-supplied point count). -/
def current_sweep_log (start stop : Frac) (points : ℕ) (compliance delay nplc : Frac)
    (readReply : Option (List Frac)) :
    List String × Option (List (String × List Frac)) :=
  let setup : List String :=
    [ "*RST",
      Measure.set_concurrent false,
      Source.set_function "CURR",
      Measure.set_function ["VOLT:DC"],
      Measure.set_voltage_compliance compliance,
      Measure.set_nplc "VOLT" nplc,
      ":SOUR:CURR:START " ++ formatE start,
      ":SOUR:CURR:STOP " ++ formatE stop,
      Source.set_current_mode "SWE",
      ":SOUR:SWE:RANG AUTO",
      ":SOUR:SWE:SPAC LOG",
      ":SOUR:SWE:POIN " ++ natStr points,
      Trigger.set_trigger_count points,
      Source.set_delay delay,
      Config.set_data_elements ["VOLT", "CURR"],
      Config.output_on,
      ":READ?" ]
  match readReply with
  | none => (setup, none)
  | some raw =>
    (setup ++ [Config.output_off], some (parse_two_element raw "voltage" "current"))

/-- `voltage_sweep_list` (custom list sweep; point count = list length). -/
def voltage_sweep_list (voltages : List Frac) (compliance delay nplc : Frac)
    (readReply : Option (List Frac)) :
    List String × Option (List (String × List Frac)) :=
  let setup : List String :=
    [ "*RST",
      Measure.set_concurrent false,
      Source.set_function "VOLT",
      Measure.set_function ["CURR:DC"],
      Measure.set_current_compliance compliance,
      Measure.set_nplc "CURR" nplc,
      Source.set_voltage_mode "LIST",
      ":SOUR:LIST:VOLT " ++ String.intercalate "," (voltages.map formatE),
      Trigger.set_trigger_count voltages.length,
      Source.set_delay delay,
      Config.set_data_elements ["VOLT", "CURR"],
      Config.output_on,
      ":READ?" ]
  match readReply with
  | none => (setup, none)
  | some raw =>
    (setup ++ [Config.output_off], some (parse_two_element raw "voltage" "current"))

/-- `current_sweep_list` (custom list sweep; point count = list length). -/
def current_sweep_list (currents : List Frac) (compliance delay nplc : Frac)
    (readReply : Option (List Frac)) :
    List String × Option (List (String × List Frac)) :=
  let setup : List String :=
    [ "*RST",
      Measure.set_concurrent false,
      Source.set_function "CURR",
      Measure.set_function ["VOLT:DC"],
      Measure.set_voltage_compliance compliance,
      Measure.set_nplc "VOLT" nplc,
      Source.set_current_mode "LIST",
      ":SOUR:LIST:CURR " ++ String.intercalate "," (currents.map formatE),
      Trigger.set_trigger_count currents.length,
      Source.set_delay delay,
      Config.set_data_elements ["VOLT", "CURR"],
      Config.output_on,
      ":READ?" ]
  match readReply with
  | none => (setup, none)
  | some raw =>
    (setup ++ [Config.output_off], some (parse_two_element raw "voltage" "current"))

end Sweep

/-- Test `cmds` appear in `trace` in the given relative order (sublist). -/
def containsInOrder : List String → List String → Bool
  | [], _ => true
  | _ :: _, [] => false
  | x :: xs, y :: ys =>
    if x = y then containsInOrder xs ys else containsInOrder (x :: xs) ys

/-- Shape check for the `%E` wire format after an optional leading minus:
one digit, a point, six digits, `E`, a sign, and at least two digits. -/
def isSci6Core : List Char → Bool
  | d0 :: '.' :: c1 :: c2 :: c3 :: c4 :: c5 :: c6 :: 'E' :: sg :: ds =>
    d0.isDigit && c1.isDigit && c2.isDigit && c3.isDigit && c4.isDigit &&
      c5.isDigit && c6.isDigit && (sg = '+' || sg = '-') &&
      decide (2 ≤ ds.length) && ds.all (·.isDigit)
  | _ => false

/-- Whether a string is in six-fractional-digit scientific notation with a
signed, at-least-two-digit exponent (an optional leading minus allowed). -/
def isSci6 (s : String) : Bool :=
  if s.data.head? = some '-' then isSci6Core s.data.tail else isSci6Core s.data

/-- First mantissa character of a rendered number (skipping a minus sign). -/
def leadMantissa (s : String) : Char :=
  if s.data.head? = some '-' then s.data.tail.headD ' ' else s.data.headD ' '

/-- Evidence that a sweep run left the output energised: the routine raised
(`result = none`), the output had been enabled, the last command sent is the
failing `:READ?`, and `:OUTP OFF` appears nowhere in the trace. -/
def readFailureLeavesOutputOn
    (r : List String × Option (List (String × List Frac))) : Bool :=
  r.2.isNone && decide (":OUTP OFF" ∉ r.1) &&
    decide (r.1.getLast? = some ":READ?") && decide (":OUTP ON" ∈ r.1)

/-! ## Helper lemmas -/

theorem everyOther_length {α : Type} :
    ∀ l : List α, (Sweep.everyOther l).length = (l.length + 1) / 2
  | [] => by simp [Sweep.everyOther]
  | [_] => by simp [Sweep.everyOther]
  | _ :: _ :: rest => by
    simp only [Sweep.everyOther, List.length_cons, everyOther_length rest]
    omega

theorem everyOther_tail_length {α : Type} (l : List α) :
    (Sweep.everyOther l.tail).length = l.length / 2 := by
  cases l with
  | nil => simp [Sweep.everyOther]
  | cons x xs =>
    simp only [List.tail_cons, everyOther_length xs, List.length_cons]

theorem everyOther_getElem {α : Type} :
    ∀ (l : List α) (i : ℕ), (Sweep.everyOther l)[i]? = l[2 * i]?
  | [], i => by simp [Sweep.everyOther]
  | [x], i => by
    cases i with
    | zero => simp [Sweep.everyOther]
    | succ j =>
      have h1 : (Sweep.everyOther [x])[j + 1]? = none := by
        simp [Sweep.everyOther]
      have h2 : ([x] : List α)[2 * (j + 1)]? = none := by
        apply List.getElem?_eq_none
        simp; omega
      rw [h1, h2]
  | x :: y :: rest, i => by
    cases i with
    | zero => simp [Sweep.everyOther]
    | succ j =>
      have h2 : 2 * (j + 1) = 2 * j + 1 + 1 := by ring
      simp only [Sweep.everyOther, List.getElem?_cons_succ, h2]
      exact everyOther_getElem rest j

theorem everyOther_tail_getElem {α : Type} (l : List α) (i : ℕ) :
    (Sweep.everyOther l.tail)[i]? = l[2 * i + 1]? := by
  cases l with
  | nil => simp [Sweep.everyOther]
  | cons x xs => simpa using everyOther_getElem xs i

/-! ## Claim theorems -/

/-- C1.  The claim asserts that when the transport read during the execute
step raises, every sweep variant still sends `:OUTP OFF` before re-raising.
The code has no `try/finally` around the read, so the claim FAILS: this
theorem evaluates all six sweep variants at concrete inputs with the read
raising (`readReply = none`) and shows that each trace ends at `:READ?` and
that `:OUTP OFF` is never sent, while the error propagates. -/
theorem c1_read_failure_skips_output_off :
    readFailureLeavesOutputOn
      (Sweep.voltage_sweep_linear 0 1 (fr 1 2) (fr 1 10) (fr 1 10) 1 none) = true ∧
    readFailureLeavesOutputOn
      (Sweep.current_sweep_linear 0 (fr 1 100) (fr 1 1000) 1 (fr 1 10) 1 none) = true ∧
    readFailureLeavesOutputOn
      (Sweep.voltage_sweep_log (fr 1 10) 10 3 (fr 1 10) (fr 1 10) 1 none) = true ∧
    readFailureLeavesOutputOn
      (Sweep.current_sweep_log (fr 1 1000) (fr 1 100) 3 1 (fr 1 10) 1 none) = true ∧
    readFailureLeavesOutputOn
      (Sweep.voltage_sweep_list [7, 1, 3] (fr 1 10) (fr 1 10) 1 none) = true ∧
    readFailureLeavesOutputOn
      (Sweep.current_sweep_list [fr 1 1000, fr 5 1000] 10 (fr 1 10) 1 none) = true := by
  decide

/-- C2.  End-to-end linear voltage sweep: start = 0, stop = 1, step = 0.5
(compliance 0.1, default delay 0.1 and NPLC 1.0) against a transport whose
`:READ?` reply parses to `[0.0, 1e-6, 0.5, 2e-6, 1.0, 3e-6]` returns
voltage = [0.0, 0.5, 1.0] and current = [1e-6, 2e-6, 3e-6], and the trace
contains `*RST`, the setup commands, the sweep-parameter commands,
`:TRIG:COUN 3`, `:OUTP ON`, `:READ?`, `:OUTP OFF` in that relative order. -/
theorem c2_linear_voltage_sweep_end_to_end :
    (Sweep.voltage_sweep_linear 0 1 (fr 1 2) (fr 1 10) (fr 1 10) 1
        (some [0, fr 1 1000000, fr 1 2, fr 2 1000000, 1, fr 3 1000000])).2 =
      some [("voltage", [0, fr 1 2, 1]),
            ("current", [fr 1 1000000, fr 2 1000000, fr 3 1000000])] ∧
    containsInOrder
      [ "*RST", ":SENS:FUNC:CONC OFF", ":SOUR:FUNC VOLT", ":SENS:FUNC \"CURR:DC\"",
        ":SENS:CURR:PROT 1.000000E-01", ":SENS:CURR:NPLC 1.0",
        ":SOUR:VOLT:START 0.000000E+00", ":SOUR:VOLT:STOP 1.000000E+00",
        ":SOUR:VOLT:STEP 5.000000E-01", ":SOUR:VOLT:MODE SWE",
        ":SOUR:SWE:RANG AUTO", ":SOUR:SWE:SPAC LIN", ":TRIG:COUN 3",
        ":OUTP ON", ":READ?", ":OUTP OFF" ]
      (Sweep.voltage_sweep_linear 0 1 (fr 1 2) (fr 1 10) (fr 1 10) 1
        (some [0, fr 1 1000000, fr 1 2, fr 2 1000000, 1, fr 3 1000000])).1 = true := by
  decide

/-- C3, counterexample.  The claim asserts a reply whose length differs from
`2 * pointCount` makes the demultiplexing step fail with a ParseError.  The
code performs no length check: a linear voltage sweep resolving to 3 points
(`:TRIG:COUN 3` is in the trace) that receives only 4 reply values returns
normally with two silently truncated 2-element channels. -/
theorem c3_counterexample_silent_truncation :
    (let r := Sweep.voltage_sweep_linear 0 1 (fr 1 2) (fr 1 10) (fr 1 10) 1
        (some [1, 2, 3, 4])
     ":TRIG:COUN 3" ∈ r.1 ∧
     r.2 = some [("voltage", [1, 3]), ("current", [2, 4])] ∧
     (r.2.map fun chans => chans.map fun p => p.2.length) = some [2, 2]) := by
  decide

/-- C3, amended.  The demultiplexing step never fails and performs no length
validation: from an `n`-value reply it always returns `⌈n/2⌉` excitation and
`⌊n/2⌋` measured values, so a count mismatch yields silently truncated or
padded channels rather than an error.  When the reply does hold exactly
`2 * pointCount` values, both channels have length `pointCount`. -/
theorem c3_amended_demux_lengths :
    (∀ (raw : List Frac) (ka kb : String) (count : ℕ), raw.length = 2 * count →
      ((Sweep.parse_two_element raw ka kb).map fun p => p.2.length) = [count, count]) ∧
    (∀ (raw : List Frac) (ka kb : String),
      ((Sweep.parse_two_element raw ka kb).map fun p => p.2.length) =
        [(raw.length + 1) / 2, raw.length / 2]) := by
  constructor
  · intro raw ka kb count h
    simp only [Sweep.parse_two_element, List.map_cons, List.map_nil]
    rw [everyOther_tail_length, everyOther_length, h]
    have e1 : (2 * count + 1) / 2 = count := by omega
    have e2 : 2 * count / 2 = count := by omega
    rw [e1, e2]
  · intro raw ka kb
    simp only [Sweep.parse_two_element, List.map_cons, List.map_nil]
    rw [everyOther_tail_length, everyOther_length]

/-- Witness for `c3_amended_demux_lengths` at a 6-value reply and 3 points. -/
theorem c3_amended_demux_lengths_witness :
    ([1, 2, 3, 4, 5, 6] : List Frac).length = 2 * 3 ∧
    ((Sweep.parse_two_element ([1, 2, 3, 4, 5, 6] : List Frac) "a" "b").map
        fun p => p.2.length) = [3, 3] :=
  ⟨by decide, c3_amended_demux_lengths.1 [1, 2, 3, 4, 5, 6] "a" "b" 3 (by decide)⟩

/-- C4.  The demultiplexer assigns even-indexed reply values (0, 2, 4, ...)
in original order to the excitation channel and odd-indexed values
(1, 3, 5, ...) in original order to the measured channel; concretely,
`[1,2,3,4,5,6]` gives a = [1,3,5], b = [2,4,6] and `[10, 0.001]` gives
a = [10], b = [0.001]. -/
theorem c4_demux_even_odd_assignment :
    (∀ (raw : List Frac) (ka kb : String), raw.length % 2 = 0 → ∀ i : ℕ,
      Sweep.parse_two_element raw ka kb =
        [(ka, Sweep.everyOther raw), (kb, Sweep.everyOther raw.tail)] ∧
      (Sweep.everyOther raw)[i]? = raw[2 * i]? ∧
      (Sweep.everyOther raw.tail)[i]? = raw[2 * i + 1]?) ∧
    Sweep.parse_two_element ([1, 2, 3, 4, 5, 6] : List Frac) "a" "b" =
      [("a", [1, 3, 5]), ("b", [2, 4, 6])] ∧
    Sweep.parse_two_element ([10, fr 1 1000] : List Frac) "a" "b" =
      [("a", [10]), ("b", [fr 1 1000])] := by
  refine ⟨fun raw ka kb _ i => ⟨rfl, everyOther_getElem raw i, everyOther_tail_getElem raw i⟩,
    by decide, by decide⟩

/-- Witness for `c4_demux_even_odd_assignment` at an even-length reply. -/
theorem c4_demux_even_odd_assignment_witness :
    ([1, 2, 3, 4] : List Frac).length % 2 = 0 ∧
    (Sweep.parse_two_element ([1, 2, 3, 4] : List Frac) "a" "b" =
      [("a", Sweep.everyOther ([1, 2, 3, 4] : List Frac)),
       ("b", Sweep.everyOther ([1, 2, 3, 4] : List Frac).tail)] ∧
     (Sweep.everyOther ([1, 2, 3, 4] : List Frac))[1]? = ([1, 2, 3, 4] : List Frac)[2 * 1]? ∧
     (Sweep.everyOther ([1, 2, 3, 4] : List Frac).tail)[1]? =
       ([1, 2, 3, 4] : List Frac)[2 * 1 + 1]?) :=
  ⟨by decide, c4_demux_even_odd_assignment.1 [1, 2, 3, 4] "a" "b" (by decide) 1⟩

/-- C5.  For every linear sweep (voltage or current) with nonzero step, the
resolved point count is `round(|stop - start| / |step|) + 1` with Python's
`round` (ties resolve to the even neighbour, which is one of the two nearest
integers) and exactly that count is written as `:TRIG:COUN {count}`;
concretely 0 → 1.0 in steps of 0.5 gives 3 points and 0 → 0 with step 0.1
gives 1 point. -/
theorem c5_linear_point_count :
    (∀ (start stop step compliance delay nplc : Frac)
        (reply : Option (List Frac)), step.isZero = false →
      Trigger.set_trigger_count (Sweep.numPointsLinear start stop step) ∈
        (Sweep.voltage_sweep_linear start stop step compliance delay nplc reply).1 ∧
      Trigger.set_trigger_count (Sweep.numPointsLinear start stop step) ∈
        (Sweep.current_sweep_linear start stop step compliance delay nplc reply).1) ∧
    (∀ start stop step : Frac, Sweep.numPointsLinear start stop step =
        (pyRound ((stop.sub start).abs.divNN step.abs)).toNat + 1) ∧
    (∀ n : ℕ, Trigger.set_trigger_count n = ":TRIG:COUN " ++ natStr n) ∧
    Sweep.numPointsLinear 0 1 (fr 1 2) = 3 ∧
    Sweep.numPointsLinear 0 0 (fr 1 10) = 1 := by
  refine ⟨?_, fun _ _ _ => rfl, fun _ => rfl, by decide, by decide⟩
  intro start stop step compliance delay nplc reply hz
  constructor
  · simp only [Sweep.voltage_sweep_linear, hz, Bool.false_eq_true, if_false]
    cases reply <;> simp
  · simp only [Sweep.current_sweep_linear, hz, Bool.false_eq_true, if_false]
    cases reply <;> simp

/-- Witness for `c5_linear_point_count` at the 0 → 1.0, step 0.5 sweep. -/
theorem c5_linear_point_count_witness :
    (fr 1 2).isZero = false ∧
    Trigger.set_trigger_count (Sweep.numPointsLinear 0 1 (fr 1 2)) ∈
      (Sweep.voltage_sweep_linear 0 1 (fr 1 2) (fr 1 10) (fr 1 10) 1 none).1 :=
  ⟨by decide,
    (c5_linear_point_count.1 0 1 (fr 1 2) (fr 1 10) (fr 1 10) 1 none (by decide)).1⟩

/-- C6.  `read_all_errors` drains the queue: for any reply stream made of a
(well-formed, non-zero-code) prefix followed by a code-0 entry, it returns
exactly the prefix entries in arrival order, never includes the code-0
sentinel, and stops querying there (the replies after the sentinel are left
unconsumed). -/
theorem c6_drain_stops_at_first_zero :
    ∀ (pre : List String) (z : String) (rest : List String)
      (es : List (ℤ × String)),
      pre.mapM Status.read_error = some es →
      (∀ e ∈ es, e.1 ≠ 0) →
      (∃ m, Status.read_error z = some (0, m)) →
      Status.read_all_errors (pre ++ z :: rest) = some (es, rest) := by
  intro pre
  induction pre with
  | nil =>
    intro z rest es hes hnz hz
    obtain ⟨m, hm⟩ := hz
    simp only [List.mapM_nil, pure, Option.some.injEq] at hes
    subst hes
    simp [Status.read_all_errors, hm]
  | cons r pre ih =>
    intro z rest es hes hnz hz
    rw [List.mapM_cons] at hes
    cases hr : Status.read_error r with
    | none => rw [hr] at hes; simp at hes
    | some e =>
      rw [hr] at hes
      cases hps : pre.mapM Status.read_error with
      | none => rw [hps] at hes; simp at hes
      | some es' =>
        rw [hps] at hes
        simp only [Option.bind_eq_bind, Option.some_bind, pure,
          Option.some.injEq] at hes
        subst hes
        obtain ⟨c, msg⟩ := e
        have hc : c ≠ 0 := hnz (c, msg) (List.mem_cons_self _ _)
        simp only [List.cons_append, Status.read_all_errors, hr, if_neg hc,
          List.append_eq]
        rw [ih z rest es' hps (fun x hx => hnz x (List.mem_cons_of_mem _ hx)) hz]
        rfl

/-- Witness for `c6_drain_stops_at_first_zero`: the specification's concrete
stream (15, "overflow") then (0, "No error") yields exactly [(15, "overflow")]. -/
theorem c6_drain_stops_at_first_zero_witness :
    ["15,\"overflow\""].mapM Status.read_error = some [(15, "overflow")] ∧
    Status.read_all_errors ["15,\"overflow\"", "0,\"No error\""] =
      some ([(15, "overflow")], []) :=
  ⟨by decide,
    c6_drain_stops_at_first_zero ["15,\"overflow\""] "0,\"No error\"" []
      [(15, "overflow")] (by decide) (by decide) ⟨"No error", by decide⟩⟩

/-- C7.  The arm-count getter normalises its reply: a reply parsing to a
value above 2500 (such as `9.9E37`) returns the INFinite sentinel `-1`, a
reply parsing to a value at most 2500 returns the value truncated to int,
and a `2500` reply reads back as 2500. -/
theorem c7_arm_count_normalization :
    (∀ (s : String) (v : Frac), pyParseFloat (pyStrip s) = some v →
        Frac.intLt 2500 v = true → Trigger.get_arm_count s = some (-1)) ∧
    (∀ (s : String) (v : Frac), pyParseFloat (pyStrip s) = some v →
        Frac.intLt 2500 v = false → Trigger.get_arm_count s = some (pyTrunc v)) ∧
    Trigger.get_arm_count "9.9E37" = some (-1) ∧
    Trigger.get_arm_count "2500" = some 2500 := by
  refine ⟨?_, ?_, by decide, by decide⟩
  · intro s v hv hlt
    simp [Trigger.get_arm_count, hv, hlt]
  · intro s v hv hlt
    simp [Trigger.get_arm_count, hv, hlt]

/-- Witness for `c7_arm_count_normalization`: a 9000 reply normalises to the
sentinel and a 123.4 reply truncates to 123. -/
theorem c7_arm_count_normalization_witness :
    pyParseFloat (pyStrip "9000") = some (fr 9000 1) ∧
    Frac.intLt 2500 (fr 9000 1) = true ∧
    Trigger.get_arm_count "9000" = some (-1) ∧
    Trigger.get_arm_count "123.4" = some (pyTrunc (fr 1234 10)) :=
  ⟨by decide, by decide,
    c7_arm_count_normalization.1 "9000" (fr 9000 1) (by decide) (by decide),
    c7_arm_count_normalization.2.1 "123.4" (fr 1234 10) (by decide) (by decide)⟩

/-- C8, counterexample.  The claim asserts every integer-returning getter
decodes via float-then-int truncation so `100.000000` is accepted; but
`read_status_byte` (cited by the claim) is `int(reply)` with no float stage
and raises on that very reply, while `get_trigger_count` accepts it. -/
theorem c8_counterexample_status_byte_rejects_fraction :
    Status.read_status_byte "100.000000" = none ∧
    Trigger.get_trigger_count "100.000000" = some 100 := by
  decide

/-- C8, amended.  The trigger-layer integer getters (`get_trigger_count`,
`get_arm_count`) decode via float parse then int truncation and accept
fractional formatting such as `100.000000`; the status/event register
getters (`read_status_byte`, `read_event_register`) pass the reply straight
to `int(...)` and raise on fractional formatting. -/
theorem c8_amended_int_getter_split :
    (∀ (s : String) (v : Frac), pyParseFloat (pyStrip s) = some v →
        Trigger.get_trigger_count s = some (pyTrunc v)) ∧
    (∀ s : String, Status.read_status_byte s = pyParseInt (pyStrip s) ∧
        Status.read_event_register s = pyParseInt (pyStrip s)) ∧
    Trigger.get_trigger_count "100.000000" = some 100 ∧
    Trigger.get_arm_count "100.000000" = some 100 ∧
    Status.read_status_byte "100.000000" = none ∧
    Status.read_event_register "100.000000" = none ∧
    Status.read_status_byte "100" = some 100 := by
  refine ⟨?_, fun s => ⟨rfl, rfl⟩, by decide, by decide, by decide, by decide, by decide⟩
  intro s v hv
  simp [Trigger.get_trigger_count, hv]

/-- Witness for `c8_amended_int_getter_split` at a fractional reply. -/
theorem c8_amended_int_getter_split_witness :
    pyParseFloat (pyStrip "42.000000") = some (fr 42000000 1000000) ∧
    Trigger.get_trigger_count "42.000000" = some (pyTrunc (fr 42000000 1000000)) :=
  ⟨by decide,
    c8_amended_int_getter_split.1 "42.000000" (fr 42000000 1000000) (by decide)⟩

/-- `Status.splitFirstComma` succeeds exactly when the list holds a comma. -/
theorem splitFirstComma_isSome :
    ∀ cs : List Char, (Status.splitFirstComma cs).isSome = true ↔ ',' ∈ cs
  | [] => by simp [Status.splitFirstComma]
  | c :: rest => by
    by_cases hc : c = ','
    · subst hc; simp [Status.splitFirstComma]
    · simp only [Status.splitFirstComma, if_neg hc, Option.isSome_map',
        List.mem_cons, splitFirstComma_isSome rest]
      constructor
      · intro h; exact Or.inr h
      · rintro (h | h)
        · exact absurd h.symm hc
        · exact h

/-- `Status.splitFirstComma` splits at the first comma: the prefix is comma-free
and the input is the prefix, the comma, then the suffix. -/
theorem splitFirstComma_spec :
    ∀ cs pre post : List Char, Status.splitFirstComma cs = some (pre, post) →
      cs = pre ++ ',' :: post ∧ ',' ∉ pre
  | [], pre, post => by simp [Status.splitFirstComma]
  | c :: rest, pre, post => by
    by_cases hc : c = ','
    · subst hc
      simp only [Status.splitFirstComma, if_pos rfl, Option.some.injEq, Prod.mk.injEq]
      rintro ⟨rfl, rfl⟩
      exact ⟨rfl, List.not_mem_nil ','⟩
    · simp only [Status.splitFirstComma, if_neg hc]
      cases hres : Status.splitFirstComma rest with
      | none => exact fun h => nomatch h
      | some p =>
        obtain ⟨a, b⟩ := p
        simp only [Option.map_some', Option.some.injEq, Prod.mk.injEq]
        rintro ⟨rfl, rfl⟩
        obtain ⟨ha, hnin⟩ := splitFirstComma_spec rest a b hres
        refine ⟨by rw [ha]; rfl, ?_⟩
        intro hmem
        rcases List.mem_cons.mp hmem with h | h
        · exact hc h.symm
        · exact hnin h

/-- C10.  `read_error` returns a normal entry exactly when the stripped
reply holds at least one comma and the text before the first comma parses
as an integer; it then returns that integer paired with the text after the
first comma, stripped of surrounding whitespace and double quotes, with
inner commas preserved.  Otherwise it raises (`none`), never defaulting. -/
theorem c10_read_error_contract :
    (∀ (reply : String) (pre post : List Char),
        Status.splitFirstComma (pyStripChars reply.data) = some (pre, post) →
        Status.read_error reply =
          (pyParseInt ⟨pre⟩).map fun c => (c, ⟨stripQuoteChars (pyStripChars post)⟩)) ∧
    (∀ reply : String, Status.splitFirstComma (pyStripChars reply.data) = none →
        Status.read_error reply = none) ∧
    (∀ cs : List Char, (Status.splitFirstComma cs).isSome = true ↔ ',' ∈ cs) ∧
    (∀ cs pre post : List Char, Status.splitFirstComma cs = some (pre, post) →
        cs = pre ++ ',' :: post ∧ ',' ∉ pre) ∧
    Status.read_error "15,\"overflow, more\"" = some (15, "overflow, more") ∧
    Status.read_error " -113, \"Undefined header\" " = some (-113, "Undefined header") ∧
    Status.read_error "no comma" = none ∧
    Status.read_error "abc,\"x\"" = none := by
  refine ⟨?_, ?_, splitFirstComma_isSome, splitFirstComma_spec,
    by decide, by decide, by decide, by decide⟩
  · intro reply pre post h
    simp [Status.read_error, h]
  · intro reply h
    simp [Status.read_error, h]

/-- Witness for `c10_read_error_contract` at the reply `15,x`. -/
theorem c10_read_error_contract_witness :
    Status.splitFirstComma (pyStripChars ("15,x" : String).data) = some (['1', '5'], ['x']) ∧
    Status.read_error "15,x" =
      (pyParseInt ⟨['1', '5']⟩).map fun c => (c, ⟨stripQuoteChars (pyStripChars ['x'])⟩) :=
  ⟨by decide, c10_read_error_contract.1 "15,x" ['1', '5'] ['x'] (by decide)⟩

/-! ## Lemmas for the scientific-notation wire format -/

theorem decDigitChar_isDigit (n : ℕ) : (decDigitChar n).isDigit = true := by
  unfold decDigitChar
  split <;> decide

theorem decDigitChar_ne_zero (n : ℕ) (h1 : 1 ≤ n) (h9 : n ≤ 9) :
    decDigitChar n ≠ '0' := by
  interval_cases n <;> decide

theorem natDigitsAux_all_digits :
    ∀ (f n : ℕ), ∀ c ∈ natDigitsAux f n, c.isDigit = true
  | 0, n => by simp [natDigitsAux]
  | f + 1, n => by
    intro c hc
    rw [natDigitsAux] at hc
    by_cases h : n < 10
    · rw [if_pos h] at hc
      rcases List.mem_singleton.mp hc with rfl
      exact decDigitChar_isDigit n
    · rw [if_neg h] at hc
      rcases List.mem_append.mp hc with h2 | h2
      · exact natDigitsAux_all_digits f (n / 10) c h2
      · rcases List.mem_singleton.mp h2 with rfl
        exact decDigitChar_isDigit (n % 10)

theorem natDigitsAux_length_pos (f n : ℕ) (hf : 1 ≤ f) :
    1 ≤ (natDigitsAux f n).length := by
  cases f with
  | zero => omega
  | succ f =>
    rw [natDigitsAux]
    by_cases h : n < 10
    · rw [if_pos h]; simp
    · rw [if_neg h]; simp

theorem expDigits_all_digits (n : ℕ) : ∀ c ∈ expDigits n, c.isDigit = true := by
  intro c hc
  rw [expDigits] at hc
  by_cases h : n < 10
  · rw [if_pos h] at hc
    rcases List.mem_cons.mp hc with rfl | h2
    · decide
    · exact natDigitsAux_all_digits _ _ c h2
  · rw [if_neg h] at hc
    exact natDigitsAux_all_digits _ _ c hc

theorem expDigits_two_le (n : ℕ) : 2 ≤ (expDigits n).length := by
  rw [expDigits]
  by_cases h : n < 10
  · rw [if_pos h]
    simp only [List.length_cons]
    have := natDigitsAux_length_pos (n + 1) n (by omega)
    omega
  · rw [if_neg h]
    rw [natDigitsAux, if_neg (by omega : ¬ n < 10)]
    simp only [List.length_append, List.length_cons, List.length_nil]
    have := natDigitsAux_length_pos n (n / 10) (by omega)
    omega

theorem fdiv_bounds (n : ℤ) {d : ℤ} (hd : 0 < d) :
    d * n.fdiv d ≤ n ∧ n < d * (n.fdiv d + 1) := by
  rw [Int.fdiv_eq_ediv _ (le_of_lt hd)]
  have h1 := Int.ediv_add_emod n d
  have h2 := Int.emod_nonneg n (ne_of_gt hd)
  have h3 := Int.emod_lt_of_pos n hd
  constructor
  · linarith
  · rw [mul_add, mul_one]
    linarith

theorem pyRound_mem (n : ℤ) (d : ℤ) :
    pyRound ⟨n, d⟩ = n.fdiv d ∨ pyRound ⟨n, d⟩ = n.fdiv d + 1 := by
  rw [pyRound]
  split
  · exact Or.inl rfl
  · split
    · exact Or.inr rfl
    · split
      · exact Or.inl rfl
      · exact Or.inr rfl

theorem normLoop_bracket :
    ∀ (f : ℕ) (n d e : ℤ), 0 < n → 0 < d →
      d ≤ n * 10 ^ f → n < d * 10 ^ (f + 1) →
      0 < (normLoop f n d e).1 ∧ 0 < (normLoop f n d e).2.1 ∧
        (normLoop f n d e).2.1 ≤ (normLoop f n d e).1 ∧
        (normLoop f n d e).1 < 10 * (normLoop f n d e).2.1
  | 0, n, d, e => by
    intro hn hd h1 h2
    rw [pow_zero, mul_one] at h1
    rw [pow_one] at h2
    refine ⟨hn, hd, h1, ?_⟩
    show n < 10 * d
    linarith
  | f + 1, n, d, e => by
    intro hn hd h1 h2
    rw [normLoop]
    by_cases hlt : n < d
    · rw [if_pos hlt]
      refine normLoop_bracket f (10 * n) d (e - 1) (by linarith) hd ?_ ?_
      · calc d ≤ n * 10 ^ (f + 1) := h1
          _ = 10 * n * 10 ^ f := by ring
      · have h10 : (10 : ℤ) ≤ 10 ^ (f + 1) := by
          calc (10 : ℤ) = 10 ^ 1 := (pow_one 10).symm
            _ ≤ 10 ^ (f + 1) := pow_le_pow_right₀ (by norm_num) (by omega)
        calc 10 * n < 10 * d := by linarith
          _ = d * 10 := by ring
          _ ≤ d * 10 ^ (f + 1) := mul_le_mul_of_nonneg_left h10 (le_of_lt hd)
    · rw [if_neg hlt]
      by_cases hge : 10 * d ≤ n
      · rw [if_pos hge]
        refine normLoop_bracket f n (10 * d) (e + 1) hn (by linarith) ?_ ?_
        · have hp : (1 : ℤ) ≤ 10 ^ f := one_le_pow₀ (by norm_num)
          calc 10 * d ≤ n := hge
            _ = n * 1 := (mul_one n).symm
            _ ≤ n * 10 ^ f := mul_le_mul_of_nonneg_left hp (by linarith)
        · calc n < d * 10 ^ (f + 1 + 1) := h2
            _ = 10 * d * 10 ^ (f + 1) := by ring
      · rw [if_neg hge]
        refine ⟨hn, hd, ?_, ?_⟩
        · show d ≤ n
          linarith
        · show n < 10 * d
          linarith

theorem normLoop_fuel_start (n d : ℤ) (hn : 0 < n) (hd : 0 < d) :
    d ≤ n * 10 ^ (n.toNat + d.toNat) ∧ n < d * 10 ^ (n.toNat + d.toNat + 1) := by
  have hdlt : d < 10 ^ d.toNat := by
    have h1 : (d.toNat : ℤ) < (10 : ℤ) ^ d.toNat := by
      exact_mod_cast Nat.lt_pow_self (by norm_num) d.toNat
    rwa [Int.toNat_of_nonneg (le_of_lt hd)] at h1
  have hnlt : n < 10 ^ n.toNat := by
    have h1 : (n.toNat : ℤ) < (10 : ℤ) ^ n.toNat := by
      exact_mod_cast Nat.lt_pow_self (by norm_num) n.toNat
    rwa [Int.toNat_of_nonneg (le_of_lt hn)] at h1
  have h1n : (1 : ℤ) ≤ n := by omega
  have h1d : (1 : ℤ) ≤ d := by omega
  constructor
  · have hmono : (10 : ℤ) ^ d.toNat ≤ 10 ^ (n.toNat + d.toNat) :=
      pow_le_pow_right₀ (by norm_num) (by omega)
    have hpos : (0 : ℤ) < 10 ^ (n.toNat + d.toNat) := pow_pos (by norm_num) _
    calc d ≤ 10 ^ d.toNat := le_of_lt hdlt
      _ ≤ 10 ^ (n.toNat + d.toNat) := hmono
      _ = 1 * 10 ^ (n.toNat + d.toNat) := (one_mul _).symm
      _ ≤ n * 10 ^ (n.toNat + d.toNat) := mul_le_mul_of_nonneg_right h1n (le_of_lt hpos)
  · have hmono : (10 : ℤ) ^ n.toNat ≤ 10 ^ (n.toNat + d.toNat + 1) :=
      pow_le_pow_right₀ (by norm_num) (by omega)
    have hpos : (0 : ℤ) < 10 ^ (n.toNat + d.toNat + 1) := pow_pos (by norm_num) _
    calc n < 10 ^ n.toNat := hnlt
      _ ≤ 10 ^ (n.toNat + d.toNat + 1) := hmono
      _ = 1 * 10 ^ (n.toNat + d.toNat + 1) := (one_mul _).symm
      _ ≤ d * 10 ^ (n.toNat + d.toNat + 1) := mul_le_mul_of_nonneg_right h1d (le_of_lt hpos)

theorem mantExp_bounds (p : Frac) (hn : 0 < p.num) (hd : 0 < p.den) :
    1000000 ≤ (mantExp p).1 ∧ (mantExp p).1 < 10000000 := by
  obtain ⟨hstart1, hstart2⟩ := normLoop_fuel_start p.num p.den hn hd
  obtain ⟨hn', hd', hlow, hhigh⟩ :=
    normLoop_bracket (p.num.toNat + p.den.toNat) p.num p.den 0 hn hd hstart1 hstart2
  simp only [mantExp]
  set r := normLoop (p.num.toNat + p.den.toNat) p.num p.den 0 with hr
  set q := (1000000 * r.1).fdiv r.2.1 with hqdef
  have hq := fdiv_bounds (1000000 * r.1) hd'
  have h1 : r.2.1 * 1000000 < r.2.1 * (q + 1) := by
    calc r.2.1 * 1000000 = 1000000 * r.2.1 := by ring
      _ ≤ 1000000 * r.1 := by linarith
      _ < r.2.1 * (q + 1) := hq.2
  have hql : 1000000 ≤ q := by
    have := lt_of_mul_lt_mul_left h1 (le_of_lt hd')
    omega
  have h3 : r.2.1 * q < r.2.1 * 10000000 := by
    calc r.2.1 * q ≤ 1000000 * r.1 := hq.1
      _ < 1000000 * (10 * r.2.1) := by linarith
      _ = r.2.1 * 10000000 := by ring
  have hqu : q < 10000000 := lt_of_mul_lt_mul_left h3 (le_of_lt hd')
  rcases pyRound_mem (1000000 * r.1) r.2.1 with hm | hm
  · rw [hm, if_neg (by omega : ¬ q = 10000000)]
    exact ⟨hql, hqu⟩
  · rw [hm]
    by_cases hc : q + 1 = 10000000
    · rw [if_pos hc]
      norm_num
    · rw [if_neg hc]
      constructor
      · omega
      · omega

theorem isSci6_mk (cs : List Char) :
    isSci6 ⟨cs⟩ =
      if cs.head? = some '-' then isSci6Core cs.tail else isSci6Core cs := rfl

theorem leadMantissa_mk (cs : List Char) :
    leadMantissa ⟨cs⟩ =
      if cs.head? = some '-' then cs.tail.headD ' ' else cs.headD ' ' := rfl

theorem isSci6Core_body (m e : ℤ) (hml : 1000000 ≤ m) (hmu : m < 10000000) :
    isSci6Core (mantissaChars m.toNat ++ 'E' :: expChars e) = true ∧
    (mantissaChars m.toNat ++ 'E' :: expChars e).headD ' ' ≠ '0' ∧
    (mantissaChars m.toNat ++ 'E' :: expChars e).head? ≠ some '-' := by
  have hm0 : m.toNat / 1000000 % 10 = m.toNat / 1000000 := by omega
  have h1le : 1 ≤ m.toNat / 1000000 := by omega
  have h9 : m.toNat / 1000000 ≤ 9 := by omega
  simp only [mantissaChars, expChars, List.cons_append, List.nil_append]
  refine ⟨?_, ?_, ?_⟩
  · simp only [isSci6Core, Bool.and_eq_true, Bool.or_eq_true, decide_eq_true_eq,
      List.all_eq_true]
    refine ⟨⟨⟨⟨⟨⟨⟨⟨⟨decDigitChar_isDigit _, decDigitChar_isDigit _⟩,
      decDigitChar_isDigit _⟩, decDigitChar_isDigit _⟩, decDigitChar_isDigit _⟩,
      decDigitChar_isDigit _⟩, decDigitChar_isDigit _⟩, ?_⟩,
      expDigits_two_le _⟩, fun c hc => expDigits_all_digits _ c hc⟩
    by_cases he : e < 0
    · rw [if_pos he]
      exact Or.inr rfl
    · rw [if_neg he]
      exact Or.inl rfl
  · simp only [List.headD_cons, hm0]
    exact decDigitChar_ne_zero _ h1le h9
  · simp only [List.head?_cons, ne_eq, Option.some.injEq]
    intro h
    have := decDigitChar_isDigit (m.toNat / 1000000 % 10)
    rw [h] at this
    exact absurd this (by decide)

theorem formatE_shape (p : Frac) (hd : 0 < p.den) :
    isSci6 (formatE p) = true ∧ (p.num ≠ 0 → leadMantissa (formatE p) ≠ '0') := by
  by_cases hp : p.num = 0
  · rw [formatE, if_pos hp]
    exact ⟨by decide, fun h => absurd hp h⟩
  · have habs : 0 < p.abs.num := by
      show 0 < |p.num|
      exact abs_pos.mpr hp
    obtain ⟨hml, hmu⟩ := mantExp_bounds p.abs habs hd
    obtain ⟨hcore, hlead, hnotdash⟩ :=
      isSci6Core_body (mantExp p.abs).1 (mantExp p.abs).2 hml hmu
    simp only [formatE, if_neg hp]
    by_cases hneg : p.num * p.den < 0
    · rw [if_pos hneg, isSci6_mk, leadMantissa_mk]
      simp only [List.head?_cons, if_pos rfl, List.tail_cons]
      exact ⟨hcore, fun _ => hlead⟩
    · rw [if_neg hneg, isSci6_mk, leadMantissa_mk]
      rw [if_neg hnotdash, if_neg hnotdash]
      exact ⟨hcore, fun _ => hlead⟩

/-- C9.  Every source/measure level, range and compliance setter renders its
float in normalised scientific notation: an optional minus, one leading
mantissa digit (nonzero whenever the value is nonzero), a decimal point,
exactly six fractional mantissa digits, then `E`, a sign, and at least two
exponent digits; concretely 0.01 renders as `1.000000E-02`. -/
theorem c9_sci_notation_format :
    (∀ v : Frac, 0 < v.den →
        isSci6 (formatE v) = true ∧ (v.num ≠ 0 → leadMantissa (formatE v) ≠ '0')) ∧
    (∀ v : Frac,
        Source.set_voltage v = ":SOUR:VOLT:LEV " ++ formatE v ∧
        Source.set_current v = ":SOUR:CURR:LEV " ++ formatE v ∧
        Source.set_voltage_range v = ":SOUR:VOLT:RANG " ++ formatE v ∧
        Source.set_current_range v = ":SOUR:CURR:RANG " ++ formatE v ∧
        Source.set_voltage_protection v = ":SOUR:VOLT:PROT " ++ formatE v ∧
        Measure.set_voltage_compliance v = ":SENS:VOLT:PROT " ++ formatE v ∧
        Measure.set_current_compliance v = ":SENS:CURR:PROT " ++ formatE v ∧
        Measure.set_voltage_range v = ":SENS:VOLT:RANG " ++ formatE v ∧
        Measure.set_current_range v = ":SENS:CURR:RANG " ++ formatE v) ∧
    formatE (fr 1 100) = "1.000000E-02" := by
  refine ⟨fun v hv => formatE_shape v hv,
    fun v => ⟨rfl, rfl, rfl, rfl, rfl, rfl, rfl, rfl, rfl⟩, by decide⟩

/-- Witness for `c9_sci_notation_format` at the value 0.01. -/
theorem c9_sci_notation_format_witness :
    (0 : ℤ) < (fr 1 100).den ∧ (fr 1 100).num ≠ 0 ∧
    isSci6 (formatE (fr 1 100)) = true ∧ leadMantissa (formatE (fr 1 100)) ≠ '0' :=
  ⟨by decide, by decide, (c9_sci_notation_format.1 (fr 1 100) (by decide)).1,
    (c9_sci_notation_format.1 (fr 1 100) (by decide)).2 (by decide)⟩
